import Mathlib

/-!
Verification development for the loss-chain analyzer of the
jujitsu-dashboard repository (file `loss_chain_analyzer.py`).

The Python module is shallowly embedded: every class and function used by
the claims is translated to an executable Lean definition, keeping the
source names.  Python floats are modelled as exact rationals (ℚ); Python
ordered dictionaries are modelled as insertion-ordered association lists;
Python sets used for the two adjacency graphs are modelled as
duplicate-free lists in insertion order (set membership, not order, is
what the analyzer relies on).  Printing functions are modelled as
functions returning the list of printed lines.
-/

namespace LossChain

/-- Country codes treated as Saudi (constant `SAUDI_CODES`). -/
def SAUDI_CODES : List String := ["KSA", "SAU", "SAUDI"]

/-- Asian country codes used for scouting focus (constant `ASIAN_COUNTRIES`). -/
def ASIAN_COUNTRIES : List String :=
  ["KSA", "SAU", "UAE", "KAZ", "UZB", "JPN", "KOR", "CHN", "MNG", "MGL",
   "THA", "VIE", "INA", "MAS", "SGP", "PHI", "IND", "PAK", "IRN", "IRI",
   "JOR", "KUW", "BRN", "QAT", "OMA", "YEM", "SYR", "LBN", "IRQ"]

/-- Dataclass `MatchResult`: a single match result. -/
structure MatchResult where
  winner : String
  winner_country : String
  loser : String
  loser_country : String
  score : Option String := none
  event : Option String := none
  category : Option String := none
  round : Option String := none
  date : Option String := none
deriving DecidableEq, Repr

/-- Dataclass `AthleteRecord`: an athlete with win/loss match lists. -/
structure AthleteRecord where
  name : String
  country : String
  wins : List MatchResult := []
  losses : List MatchResult := []
deriving DecidableEq, Repr

/-- Property `AthleteRecord.total_matches`. -/
def AthleteRecord.total_matches (r : AthleteRecord) : Nat :=
  r.wins.length + r.losses.length

/-- Property `AthleteRecord.win_rate`: wins / (wins + losses), 0.0 when the
athlete has no matches.  Python float division is modelled exactly in ℚ. -/
def AthleteRecord.win_rate (r : AthleteRecord) : ℚ :=
  if 0 < r.wins.length + r.losses.length then
    (r.wins.length : ℚ) / ((r.wins.length + r.losses.length : Nat) : ℚ)
  else 0

/-- One entry of the `key_losses` list built in `calculate_beatability`
(the Python dict with keys to/country/score/event/round). -/
structure KeyLoss where
  lost_to : String
  country : String
  score : Option String
  event : Option String
  round : Option String
deriving DecidableEq, Repr

/-- Dataclass `ScoutingTarget`. -/
structure ScoutingTarget where
  opponent_name : String
  opponent_country : String
  beatability_score : ℚ
  reasoning : List String
  key_losses : List KeyLoss
  shared_opponents : List String
  recent_form : String
  world_rank : Option Nat := none
deriving DecidableEq, Repr

/-- An adjacency graph: Python `Dict[str, Set[str]]` as an
insertion-ordered association list whose value lists are duplicate-free. -/
abbrev Graph : Type := List (String × List String)

/-- `g.get(k, set())`: the adjacency set of `k`, empty when absent. -/
def graphGet (g : Graph) (k : String) : List String :=
  match g with
  | [] => []
  | (k', vs) :: rest => if k' = k then vs else graphGet rest k

/-- `g[k].add(v)` on a `defaultdict(set)`: inserts the key when absent and
adds `v` to its set; adding an already-present element changes nothing. -/
def graphAdd (g : Graph) (k v : String) : Graph :=
  match g with
  | [] => [(k, [v])]
  | (k', vs) :: rest =>
      if k' = k then (k', if v ∈ vs then vs else vs ++ [v]) :: rest
      else (k', vs) :: graphAdd rest k v

/-- The mutable state of class `LossChainAnalyzer`. -/
structure Analyzer where
  matchList : List MatchResult := []
  athlete_records : List (String × AthleteRecord) := []
  loss_graph : Graph := []
  win_graph : Graph := []
deriving DecidableEq, Repr

/-- `LossChainAnalyzer()`: the freshly constructed empty analyzer. -/
def Analyzer.init : Analyzer := {}

/-- Dictionary lookup `self.athlete_records.get(name)`. -/
def recordsGet (rs : List (String × AthleteRecord)) (name : String) :
    Option AthleteRecord :=
  match rs with
  | [] => none
  | (n, r) :: rest => if n = name then some r else recordsGet rest name

/-- `if name not in dict: dict[name] = AthleteRecord(name, country)`. -/
def ensureRecord (rs : List (String × AthleteRecord)) (name country : String) :
    List (String × AthleteRecord) :=
  match recordsGet rs name with
  | some _ => rs
  | none => rs ++ [(name, { name := name, country := country })]

/-- In-place mutation of the record stored under `name`. -/
def modifyRecord (rs : List (String × AthleteRecord)) (name : String)
    (f : AthleteRecord → AthleteRecord) : List (String × AthleteRecord) :=
  rs.map (fun p => if p.1 = name then (p.1, f p.2) else p)

/-- Method `_update_records`: update athlete records and the two graphs
for one accepted match. -/
def update_records (st : Analyzer) (m : MatchResult) : Analyzer :=
  let rs1 := modifyRecord (ensureRecord st.athlete_records m.winner m.winner_country)
      m.winner (fun r => { r with wins := r.wins ++ [m] })
  let rs2 := modifyRecord (ensureRecord rs1 m.loser m.loser_country)
      m.loser (fun r => { r with losses := r.losses ++ [m] })
  { st with
    athlete_records := rs2
    loss_graph := graphAdd st.loss_graph m.loser m.winner
    win_graph := graphAdd st.win_graph m.winner m.loser }

/-- Folding `_update_records` over a sequence of accepted matches
(including appending each to `self.matches`), as the load loop does. -/
def ingest (st : Analyzer) (m : MatchResult) : Analyzer :=
  update_records { st with matchList := st.matchList ++ [m] } m

/-- One corner of a raw feed match (`red_corner` / `blue_corner` dicts);
`name = ""` models a missing or empty name (`.get('name')` falsy),
`score = none` models a missing score (`.get('score', 0)` default). -/
structure RawCorner where
  name : String := ""
  country : String := ""
  score : Option Nat := none
deriving DecidableEq, Repr

/-- One raw feed match entry; `winner = ""` models `match.get('winner', '')`
when the winner key is absent or empty. -/
structure RawMatch where
  red_corner : RawCorner := {}
  blue_corner : RawCorner := {}
  winner : String := ""
  round : Option String := none
deriving DecidableEq, Repr

/-- One category group of the feed. -/
structure RawCategory where
  category : String := ""
  matchList : List RawMatch := []
deriving DecidableEq, Repr

/-- One event group of the feed. -/
structure RawEvent where
  event_name : String := ""
  categories : List RawCategory := []
deriving DecidableEq, Repr

/-- The JSON feed consumed by `load_matches`. -/
structure Feed where
  events : List RawEvent := []
deriving DecidableEq, Repr

/-- The body of the innermost `load_matches` loop for one entry:
`none` when the entry is skipped (missing winner or corner name),
otherwise the `MatchResult` constructed from it. -/
def acceptMatch (event_name cat_name : String) (m : RawMatch) :
    Option MatchResult :=
  if m.winner = "" ∨ m.red_corner.name = "" ∨ m.blue_corner.name = "" then
    none
  else
    let p :=
      if m.winner = m.red_corner.name then
        (m.blue_corner.name, m.blue_corner.country, m.red_corner.country)
      else
        (m.red_corner.name, m.red_corner.country, m.blue_corner.country)
    some
      { winner := m.winner
        winner_country := p.2.2
        loser := p.1
        loser_country := p.2.1
        score := some (toString (m.red_corner.score.getD 0) ++ "-" ++
          toString (m.blue_corner.score.getD 0))
        event := some event_name
        category := some cat_name
        round := some (m.round.getD "Unknown") }

/-- The feed flattened in iteration order of the three nested `for` loops:
(event_name, category, match) triples. -/
def feedEntries (f : Feed) : List (String × String × RawMatch) :=
  f.events.flatMap (fun e =>
    e.categories.flatMap (fun c =>
      c.matchList.map (fun m => (e.event_name, c.category, m))))

/-- Method `load_matches` restricted to an existing feed: processes every
entry in order, skipping rejected ones, and returns the updated analyzer
together with the accepted count. -/
def load_matches (st : Analyzer) (f : Feed) : Analyzer × Nat :=
  (feedEntries f).foldl
    (fun acc e =>
      match acceptMatch e.1 e.2.1 e.2.2 with
      | none => acc
      | some r => (ingest acc.1 r, acc.2 + 1))
    (st, 0)

/-- Stable insert for a descending sort keyed by `key`: the element is
placed before the first list element whose key is not larger, so equal
keys keep their relative order. -/
def insertDescBy {α β : Type} (key : α → β) [LinearOrder β] (x : α) :
    List α → List α
  | [] => [x]
  | y :: ys => if key x < key y then y :: insertDescBy key x ys else x :: y :: ys

/-- Stable descending sort by `key`: models Python
`list.sort(key=lambda r: -key(r))`, which is a stable sort. -/
def sortDescBy {α β : Type} (key : α → β) [LinearOrder β] : List α → List α
  | [] => []
  | x :: xs => insertDescBy key x (sortDescBy key xs)

/-- Last `n` elements of a list (Python slice `l[-n:]`). -/
def lastN {α : Type} (n : Nat) (l : List α) : List α := l.drop (l.length - n)

/-- Split a character list at every occurrence of `sep`, keeping empty
chunks, exactly like Python `str.split(sep)` on the underlying text. -/
def splitOnChar (sep : Char) : List Char → List (List Char)
  | [] => [[]]
  | c :: rest =>
    let r := splitOnChar sep rest
    if c = sep then [] :: r
    else
      match r with
      | h :: t => (c :: h) :: t
      | [] => [[c]]

/-- Python `s.split(sep)` for a one-character separator, as strings. -/
def pySplit (s : String) (sep : Char) : List String :=
  (splitOnChar sep s.data).map (fun cs => ⟨cs⟩)

/-- Strip leading and trailing whitespace characters (Python `str.strip()`
as applied by `int(...)`). -/
def trimChars (cs : List Char) : List Char :=
  ((cs.dropWhile Char.isWhitespace).reverse.dropWhile
    Char.isWhitespace).reverse

/-- All-decimal-digit character list to its numeric value; `none` when
empty or containing a non-digit. -/
def digitsToNat (cs : List Char) : Option Nat :=
  if cs ≠ [] ∧ cs.all Char.isDigit then
    some (cs.foldl (fun n c => n * 10 + (c.toNat - 48)) 0)
  else none

/-- Model of Python `int(s)` on optionally signed decimal strings with
surrounding whitespace stripped; `none` models a raised `ValueError`. -/
def pyInt (s : String) : Option Int :=
  match trimChars s.data with
  | '-' :: rest => (digitsToNat rest).map (fun n => -(n : Int))
  | '+' :: rest => (digitsToNat rest).map (fun n => (n : Int))
  | cs => (digitsToNat cs).map (fun n => (n : Int))

/-- The close-loss test inside `calculate_beatability`: a truthy score
string splitting on "-" into exactly two parts that both parse as
integers with absolute difference at most 3.  The Python `try`/`except`
around `int(...)` is modelled by `pyInt` returning `none`. -/
def isCloseLoss (loss : MatchResult) : Bool :=
  match loss.score with
  | none => false
  | some s =>
    if s = "" then false
    else
      match pySplit s '-' with
      | [a, b] =>
        match pyInt a, pyInt b with
        | some s1, some s2 => decide ((s1 - s2).natAbs ≤ 3)
        | _, _ => false
      | _ => false

/-- Python set union of two adjacency sets, as a duplicate-free list;
membership (the only property the analyzer uses) matches the source. -/
def unionList (a b : List String) : List String :=
  a ++ b.filter (fun x => decide (x ∉ a))

/-- Method `find_shared_opponents`: athletes faced by both. -/
def find_shared_opponents (st : Analyzer) (saudi_name opponent_name : String) :
    List String :=
  let saudi_faced := unionList (graphGet st.win_graph saudi_name)
    (graphGet st.loss_graph saudi_name)
  let opp_faced := unionList (graphGet st.win_graph opponent_name)
    (graphGet st.loss_graph opponent_name)
  saudi_faced.filter (fun x => decide (x ∈ opp_faced))

/-- Percent rendering of a rate, modelling the `f"{x:.0%}"` fragments of
the reasoning strings (rounding modelled half-up over exact rationals;
no claim depends on the rendered digits). -/
def pctFmt (q : ℚ) : String := toString ⌊q * 100 + 1 / 2⌋ ++ "%"

/-- Method `calculate_beatability`, translated statement by statement;
`score`/`reasoning`/`form` threading is written as successive `let`
bindings numbered by the five signal blocks of the source. -/
def calculate_beatability (st : Analyzer)
    (saudi_record opponent_record : AthleteRecord) : ScoutingTarget :=
  let saudi_victims := graphGet st.win_graph saudi_record.name
  let opponent_losses_to := graphGet st.loss_graph opponent_record.name
  let shared_losses := saudi_victims.filter
    (fun x => decide (x ∈ opponent_losses_to))
  let score1 : ℚ :=
    if shared_losses.isEmpty then 0 else 0 + 3 / 10 * shared_losses.length
  let reasoning1 : List String :=
    if shared_losses.isEmpty then []
    else shared_losses.map (fun l =>
      "Lost to " ++ l ++ " - whom " ++ saudi_record.name ++ " has beaten")
  let wrGap := opponent_record.win_rate < saudi_record.win_rate
  let score2 := if wrGap then
      score1 + 2 / 10 * (saudi_record.win_rate - opponent_record.win_rate)
    else score1
  let reasoning2 := if wrGap then
      reasoning1 ++ ["Lower win rate (" ++ pctFmt opponent_record.win_rate ++
        " vs " ++ pctFmt saudi_record.win_rate ++ ")"]
    else reasoning1
  let recent_losses := if 3 ≤ opponent_record.losses.length then
      lastN 3 opponent_record.losses else opponent_record.losses
  let recent_wins := if 3 ≤ opponent_record.wins.length then
      lastN 3 opponent_record.wins else opponent_record.wins
  let declining := recent_wins.length < recent_losses.length
  let score3 := if declining then score2 + 15 / 100 else score2
  let form := if declining then "declining"
    else if recent_losses.length < recent_wins.length then "improving"
    else "stable"
  let reasoning3 := if declining then
      reasoning2 ++ ["Recent form declining (" ++
        toString recent_losses.length ++ " losses in recent matches)"]
    else reasoning2
  let expGap := opponent_record.total_matches < saudi_record.total_matches
  let score4 := if expGap then score3 + 1 / 10 else score3
  let reasoning4 := if expGap then
      reasoning3 ++ ["Less experienced (" ++
        toString opponent_record.total_matches ++ " vs " ++
        toString saudi_record.total_matches ++ " matches)"]
    else reasoning3
  let close_losses := opponent_record.losses.filter isCloseLoss
  let score5 := if close_losses.isEmpty then score4
    else score4 + 1 / 10 * (min close_losses.length 3 : Nat)
  let reasoning5 := if close_losses.isEmpty then reasoning4
    else reasoning4 ++ ["Has " ++ toString close_losses.length ++
      " close losses (competitive but beatable)"]
  let key_losses := (lastN 5 opponent_record.losses).map (fun loss =>
    { lost_to := loss.winner
      country := loss.winner_country
      score := loss.score
      event := loss.event
      round := loss.round : KeyLoss })
  let shared := find_shared_opponents st saudi_record.name opponent_record.name
  { opponent_name := opponent_record.name
    opponent_country := opponent_record.country
    beatability_score := min score5 1
    reasoning := reasoning5
    key_losses := key_losses
    shared_opponents := shared
    recent_form := form }

/-- The shared-loss set S of signal 1: athletes the reference has beaten
that the opponent has lost to, in `win_graph` insertion order. -/
def sharedLossSet (st : Analyzer) (R O : AthleteRecord) : List String :=
  (graphGet st.win_graph R.name).filter
    (fun x => decide (x ∈ graphGet st.loss_graph O.name))

/-- Signal 1 value: 0.3 per member of the shared-loss set. -/
def sharedContribution (st : Analyzer) (R O : AthleteRecord) : ℚ :=
  3 / 10 * (sharedLossSet st R O).length

/-- Signal 2 value: 0.2 times the win-rate gap when the reference rate is
strictly higher, else 0. -/
def winRateContribution (R O : AthleteRecord) : ℚ :=
  if O.win_rate < R.win_rate then 2 / 10 * (R.win_rate - O.win_rate) else 0

/-- The last-3-losses window of signal 3. -/
def recentLosses (O : AthleteRecord) : List MatchResult :=
  if 3 ≤ O.losses.length then lastN 3 O.losses else O.losses

/-- The last-3-wins window of signal 3. -/
def recentWins (O : AthleteRecord) : List MatchResult :=
  if 3 ≤ O.wins.length then lastN 3 O.wins else O.wins

/-- Signal 3 value: 0.15 when recent losses outnumber recent wins. -/
def formContribution (O : AthleteRecord) : ℚ :=
  if (recentWins O).length < (recentLosses O).length then 15 / 100 else 0

/-- Signal 4 value: 0.1 when the reference has strictly more matches. -/
def experienceContribution (R O : AthleteRecord) : ℚ :=
  if O.total_matches < R.total_matches then 1 / 10 else 0

/-- Number of close losses of signal 5. -/
def closeLossCount (O : AthleteRecord) : Nat :=
  (O.losses.filter isCloseLoss).length

/-- Signal 5 value: 0.1 per close loss, capped at three. -/
def closeContribution (O : AthleteRecord) : ℚ :=
  1 / 10 * (min (closeLossCount O) 3 : Nat)

/-- Country lookup with the "???" fallback used by `print_loss_chains`. -/
def countryOf (st : Analyzer) (name : String) : String :=
  match recordsGet st.athlete_records name with
  | some r => r.country
  | none => "???"

/-- Method `print_loss_chains`, as the list of printed lines. -/
def print_loss_chains (st : Analyzer) (athlete_name : String)
    (depth : Nat := 2) : List String :=
  let header := "\n=== LOSS CHAIN: " ++ athlete_name ++ " ===\n"
  let losses_to := graphGet st.loss_graph athlete_name
  if losses_to.isEmpty then
    [header, "  No recorded losses for " ++ athlete_name]
  else
    header :: ("  " ++ athlete_name ++ " lost to:") ::
      losses_to.flatMap (fun beater =>
        ("    -> " ++ beater ++ " (" ++ countryOf st beater ++ ")") ::
          (if 1 < depth then
            ((graphGet st.loss_graph beater).take 3).map (fun second =>
              "        -> " ++ second ++ " (" ++ countryOf st second ++ ")")
          else []))

/-- Model of Python `str.upper()` (character-wise upper-casing). -/
def strUpper (s : String) : String := ⟨s.data.map Char.toUpper⟩

/-- Model of Python `str.lower()` (character-wise lower-casing). -/
def strLower (s : String) : String := ⟨s.data.map Char.toLower⟩

/-- Does the first list start with the second? (character comparison). -/
def listStartsWith : List Char → List Char → Bool
  | _, [] => true
  | [], _ :: _ => false
  | a :: as, b :: bs => a == b && listStartsWith as bs

/-- Does the first list contain the second as a contiguous run? -/
def listHasSub : List Char → List Char → Bool
  | [], n => n.isEmpty
  | a :: as, n => listStartsWith (a :: as) n || listHasSub as n

/-- Lower-cased substring check, modelling Python
`needle.lower() in hay.lower()`. -/
def containsLower (hay needle : String) : Bool :=
  listHasSub (strLower hay).data (strLower needle).data

/-- Method `get_saudi_athletes`: Saudi records in feed order, stably
sorted by total matches descending. -/
def get_saudi_athletes (st : Analyzer) : List AthleteRecord :=
  sortDescBy AthleteRecord.total_matches
    ((st.athlete_records.map Prod.snd).filter
      (fun r => decide (strUpper r.country ∈ SAUDI_CODES)))

/-- Method `_athlete_in_category`: the athlete appears in a match of the
named category (lower-cased substring match).  `load_matches` always sets
`category` to a string, so the `getD` default is never hit on loaded data. -/
def athlete_in_category (st : Analyzer) (athlete_name category : String) :
    Bool :=
  st.matchList.any (fun m =>
    (m.winner == athlete_name || m.loser == athlete_name) &&
      containsLower (m.category.getD "") category)

/-- Method `get_asian_opponents`: Asian, non-Saudi records in feed order,
optionally restricted to one category. -/
def get_asian_opponents (st : Analyzer) (category : Option String) :
    List AthleteRecord :=
  (st.athlete_records.map Prod.snd).filter (fun (r : AthleteRecord) =>
    decide (strUpper r.country ∈ ASIAN_COUNTRIES) &&
    !decide (strUpper r.country ∈ SAUDI_CODES) &&
    (match category with
     | none => true
     | some c => athlete_in_category st r.name c))

/-- One entry of the `scouting_reports` list built by
`generate_scouting_report`. -/
structure AthleteReport where
  saudi_athlete : String
  country : String
  total_wins : Nat
  total_losses : Nat
  win_rate : ℚ
  scouting_targets : List ScoutingTarget
deriving DecidableEq, Repr

/-- Method `generate_scouting_report`, as its `scouting_reports` list
(the surrounding timestamp/count envelope carries no analyzed data). -/
def generate_scouting_report (st : Analyzer) (saudi_name : Option String)
    (category : Option String) : List AthleteReport :=
  let saudi_athletes := match saudi_name with
    | some n => (get_saudi_athletes st).filter (fun (r : AthleteRecord) => containsLower r.name n)
    | none => get_saudi_athletes st
  let opponents := get_asian_opponents st category
  saudi_athletes.map (fun (saudi : AthleteRecord) =>
    let targets := ((opponents.filter
        (fun (o : AthleteRecord) => !(o.name == saudi.name))).map
        (fun o => calculate_beatability st saudi o)).filter
      (fun (t : ScoutingTarget) => decide (0 < t.beatability_score))
    { saudi_athlete := saudi.name
      country := saudi.country
      total_wins := saudi.wins.length
      total_losses := saudi.losses.length
      win_rate := saudi.win_rate
      scouting_targets :=
        (sortDescBy ScoutingTarget.beatability_score targets).take 10 })

/-- The category-membership test of the leaderboard builders: some win or
loss of the athlete carries this (truthy) category label. -/
def hasCategory (r : AthleteRecord) (c : String) : Bool :=
  !(c == "") && (r.wins ++ r.losses).any (fun m => m.category == some c)

/-- Method `get_top_asian_athletes_by_category`, as the value stored under
category `c` of the returned dict: Asian athletes of that category in
feed order, stably sorted by total matches descending, first `top_n`. -/
def get_top_asian_athletes_by_category (st : Analyzer) (top_n : Nat)
    (c : String) : List AthleteRecord :=
  (sortDescBy AthleteRecord.total_matches
    ((st.athlete_records.map Prod.snd).filter (fun r =>
      decide (strUpper r.country ∈ ASIAN_COUNTRIES) && hasCategory r c))).take
    top_n

/-- Method `get_top_world_athletes_by_category`, as the value stored under
category `c`: all athletes of that category, same ordering and cut. -/
def get_top_world_athletes_by_category (st : Analyzer) (top_n : Nat)
    (c : String) : List AthleteRecord :=
  (sortDescBy AthleteRecord.total_matches
    ((st.athlete_records.map Prod.snd).filter (fun r => hasCategory r c))).take
    top_n

/-- A raw match entry with every field present. -/
def rawOf (w rn rc bn bc : String) (rs bs : Nat) (rd : String) : RawMatch :=
  { red_corner := { name := rn, country := rc, score := some rs },
    blue_corner := { name := bn, country := bc, score := some bs },
    winner := w,
    round := some rd }

/-- Scenario D category: two well-formed entries around one whose winner
field is empty (missing from the raw dict). -/
def catD : RawCategory :=
  { category := "85kg",
    matchList := [rawOf "ALI" "ALI" "KSA" "SMITH" "UAE" 5 3 "Final",
      rawOf "" "OMAR" "UAE" "KIM" "KOR" 1 9 "Semi",
      rawOf "ALI" "KIM" "KOR" "ALI" "KSA" 2 4 "Semi"] }

/-- Scenario D feed: two well-formed entries and one missing its winner. -/
def feedD : Feed :=
  { events := [{ event_name := "EV", categories := [catD] }] }

/-- `ks.append([x]) if x not in ks`: one step of first-appearance key
accumulation in an insertion-ordered dictionary. -/
def pushNew (ks : List String) (x : String) : List String :=
  if x ∈ ks then ks else ks ++ [x]

/-! ### Concrete Scenario A state (one match: ALI of KSA beats OMAR of
UAE, 5-3) used by counterexamples and witnesses. -/

/-- Scenario A category. -/
def catA : RawCategory :=
  { category := "94kg Male",
    matchList := [rawOf "ALI" "ALI" "KSA" "OMAR" "UAE" 5 3 "Final"] }

/-- Scenario A feed. -/
def feedA : Feed := { events := [{ event_name := "EV", categories := [catA] }] }

/-- The analyzer state after loading the Scenario A feed. -/
def stA : Analyzer := (load_matches Analyzer.init feedA).1

/-- The single accepted match of Scenario A as stored. -/
def mA : MatchResult :=
  { winner := "ALI"
    winner_country := "KSA"
    loser := "OMAR"
    loser_country := "UAE"
    score := some "5-3"
    event := some "EV"
    category := some "94kg Male"
    round := some "Final" }

/-- The record of the Scenario A loser: no wins, one loss. -/
def omarRec : AthleteRecord :=
  { name := "OMAR", country := "UAE", wins := [], losses := [mA] }

/-- The record of the Scenario A winner: one win, no losses. -/
def aliRec : AthleteRecord :=
  { name := "ALI", country := "KSA", wins := [mA], losses := [] }

/-- The explicit value of the Scenario A analyzer state. -/
def stAval : Analyzer :=
  { matchList := [mA]
    athlete_records := [("ALI", aliRec), ("OMAR", omarRec)]
    loss_graph := [("OMAR", ["ALI"])]
    win_graph := [("ALI", ["OMAR"])] }

/-- The single scouting target computed in Scenario A: OMAR evaluated for
ALI. -/
def targetA : ScoutingTarget := calculate_beatability stAval aliRec omarRec

/-- The Scenario A athlete report for ALI. -/
def arA : AthleteReport :=
  { saudi_athlete := "ALI"
    country := "KSA"
    total_wins := 1
    total_losses := 0
    win_rate := aliRec.win_rate
    scouting_targets := [targetA] }

/-! Scenario B: SMITH lost to OMAR, and ALI has beaten OMAR. -/

/-- Scenario B category: ALI beats OMAR, then OMAR beats SMITH. -/
def catB : RawCategory :=
  { category := "94kg Male",
    matchList := [rawOf "ALI" "ALI" "KSA" "OMAR" "UAE" 2 0 "Semi",
      rawOf "OMAR" "OMAR" "UAE" "SMITH" "USA" 2 0 "Final"] }

/-- Scenario B feed. -/
def feedB : Feed := { events := [{ event_name := "EV", categories := [catB] }] }

/-- The analyzer state after loading the Scenario B feed. -/
def stB : Analyzer := (load_matches Analyzer.init feedB).1

/-- Scenario B first stored match. -/
def mB1 : MatchResult :=
  { winner := "ALI"
    winner_country := "KSA"
    loser := "OMAR"
    loser_country := "UAE"
    score := some "2-0"
    event := some "EV"
    category := some "94kg Male"
    round := some "Semi" }

/-- Scenario B second stored match. -/
def mB2 : MatchResult :=
  { winner := "OMAR"
    winner_country := "UAE"
    loser := "SMITH"
    loser_country := "USA"
    score := some "2-0"
    event := some "EV"
    category := some "94kg Male"
    round := some "Final" }

/-- The Scenario B record of ALI. -/
def aliRecB : AthleteRecord :=
  { name := "ALI", country := "KSA", wins := [mB1], losses := [] }

/-- The Scenario B record of SMITH. -/
def smithRec : AthleteRecord :=
  { name := "SMITH", country := "USA", wins := [], losses := [mB2] }

/-! ### The loss-chain trace (C9) -/

/-- Scenario C category: AA loses to BB, and BB loses to CC, DD, EE and
FF — four distinct beaters, one more than the trace prints. -/
def catC : RawCategory :=
  { category := "62kg",
    matchList := [rawOf "BB" "BB" "XXB" "AA" "XXA" 2 0 "R1",
      rawOf "CC" "CC" "XXC" "BB" "XXB" 2 0 "R2",
      rawOf "DD" "DD" "XXD" "BB" "XXB" 2 0 "R3",
      rawOf "EE" "EE" "XXE" "BB" "XXB" 2 0 "R4",
      rawOf "FF" "FF" "XXF" "BB" "XXB" 2 0 "R5"] }

/-- Scenario C feed. -/
def feedC : Feed := { events := [{ event_name := "EV", categories := [catC] }] }

/-- The analyzer state after loading the Scenario C feed. -/
def stC : Analyzer := (load_matches Analyzer.init feedC).1

/-- A raw entry whose declared winner ZED matches neither corner name. -/
def mZ : RawMatch := rawOf "ZED" "RRR" "RC" "BBB" "BC" 1 2 "F"

/-! ### Graph lemmas -/

theorem graphGet_cons_self (k : String) (vs : List String) (rest : Graph) :
    graphGet ((k, vs) :: rest) k = vs := by simp [graphGet]

theorem graphGet_cons_ne (k' k : String) (vs : List String) (rest : Graph)
    (h : ¬k' = k) : graphGet ((k', vs) :: rest) k = graphGet rest k := by
  simp [graphGet, h]

theorem mem_graphGet_graphAdd_self (g : Graph) (k v : String) :
    v ∈ graphGet (graphAdd g k v) k := by
  induction g with
  | nil => simp [graphAdd, graphGet]
  | cons p rest ih =>
    obtain ⟨k', vs⟩ := p
    by_cases hk : k' = k
    · subst hk
      by_cases hv : v ∈ vs <;> simp [graphAdd, graphGet, hv]
    · simpa [graphAdd, graphGet, hk] using ih

theorem mem_graphGet_graphAdd_of_mem (g : Graph) (k k' v x : String)
    (h : x ∈ graphGet g k) : x ∈ graphGet (graphAdd g k' v) k := by
  induction g with
  | nil => simp [graphGet] at h
  | cons p rest ih =>
    obtain ⟨k₀, vs⟩ := p
    by_cases h0 : k₀ = k'
    · subst h0
      by_cases h1 : k₀ = k
      · subst h1
        rw [graphGet_cons_self] at h
        by_cases hv : v ∈ vs <;>
          simp [graphAdd, graphGet, hv, h, List.mem_append]
      · rw [graphGet_cons_ne _ _ _ _ h1] at h
        by_cases hv : v ∈ vs <;>
          simp [graphAdd, graphGet, h1, hv, h]
    · by_cases h1 : k₀ = k
      · subst h1
        rw [graphGet_cons_self] at h
        simp [graphAdd, graphGet, h0, h]
      · rw [graphGet_cons_ne _ _ _ _ h1] at h
        simp [graphAdd, graphGet, h0, h1, ih h]

theorem graphAdd_of_mem (g : Graph) (k v : String)
    (h : v ∈ graphGet g k) : graphAdd g k v = g := by
  induction g with
  | nil => simp [graphGet] at h
  | cons p rest ih =>
    obtain ⟨k₀, vs⟩ := p
    by_cases h1 : k₀ = k
    · subst h1
      rw [graphGet_cons_self] at h
      simp [graphAdd, h]
    · rw [graphGet_cons_ne _ _ _ _ h1] at h
      simp [graphAdd, h1, ih h]

/-- The winner-to-loser edge is present right after `_update_records`. -/
theorem mem_win_graph_update_records (st : Analyzer) (m : MatchResult) :
    m.loser ∈ graphGet (update_records st m).win_graph m.winner :=
  mem_graphGet_graphAdd_self _ _ _

theorem mem_loss_graph_update_records (st : Analyzer) (m : MatchResult) :
    m.winner ∈ graphGet (update_records st m).loss_graph m.loser :=
  mem_graphGet_graphAdd_self _ _ _

/-- Graph membership survives further `_update_records` calls. -/
theorem win_graph_mono (st : Analyzer) (m : MatchResult) (k x : String)
    (h : x ∈ graphGet st.win_graph k) :
    x ∈ graphGet (update_records st m).win_graph k :=
  mem_graphGet_graphAdd_of_mem _ _ _ _ _ h

theorem loss_graph_mono (st : Analyzer) (m : MatchResult) (k x : String)
    (h : x ∈ graphGet st.loss_graph k) :
    x ∈ graphGet (update_records st m).loss_graph k :=
  mem_graphGet_graphAdd_of_mem _ _ _ _ _ h

/-- Graph membership also survives a whole `ingest` step. -/
theorem graphs_mono_ingest (st : Analyzer) (m : MatchResult) (k x : String) :
    (x ∈ graphGet st.win_graph k →
      x ∈ graphGet (ingest st m).win_graph k) ∧
    (x ∈ graphGet st.loss_graph k →
      x ∈ graphGet (ingest st m).loss_graph k) :=
  ⟨fun h => mem_graphGet_graphAdd_of_mem _ _ _ _ _ h,
   fun h => mem_graphGet_graphAdd_of_mem _ _ _ _ _ h⟩

/-- `load_matches` is the fold of `ingest` over the accepted entries, and
its returned count is the number of accepted entries. -/
theorem load_matches_eq (st : Analyzer) (f : Feed) :
    load_matches st f =
      (((feedEntries f).filterMap
          (fun e => acceptMatch e.1 e.2.1 e.2.2)).foldl ingest st,
        ((feedEntries f).filterMap
          (fun e => acceptMatch e.1 e.2.1 e.2.2)).length) := by
  unfold load_matches
  generalize feedEntries f = l
  suffices h : ∀ (l : List (String × String × RawMatch)) (st : Analyzer)
      (n : Nat),
      l.foldl (fun acc e =>
        match acceptMatch e.1 e.2.1 e.2.2 with
        | none => acc
        | some r => (ingest acc.1 r, acc.2 + 1)) (st, n) =
      ((l.filterMap (fun e => acceptMatch e.1 e.2.1 e.2.2)).foldl ingest st,
        n + (l.filterMap (fun e => acceptMatch e.1 e.2.1 e.2.2)).length) by
    simpa using h l st 0
  intro l
  induction l with
  | nil => intro st n; simp
  | cons e rest ih =>
    intro st n
    cases h : acceptMatch e.1 e.2.1 e.2.2 with
    | none => simp [List.foldl_cons, h, ih]
    | some r =>
      simp only [List.foldl_cons, h, List.filterMap_cons, ih]
      simp [Nat.add_assoc, Nat.add_comm 1]

/-- Graph membership survives a whole ingestion fold. -/
theorem graphs_mem_foldl (l : List MatchResult) (st : Analyzer)
    (k x : String) :
    (x ∈ graphGet st.win_graph k →
      x ∈ graphGet (l.foldl ingest st).win_graph k) ∧
    (x ∈ graphGet st.loss_graph k →
      x ∈ graphGet (l.foldl ingest st).loss_graph k) := by
  induction l generalizing st with
  | nil => exact ⟨id, id⟩
  | cons m rest ih =>
    refine ⟨fun h => ?_, fun h => ?_⟩
    · exact (ih (ingest st m)).1 ((graphs_mono_ingest st m k x).1 h)
    · exact (ih (ingest st m)).2 ((graphs_mono_ingest st m k x).2 h)

/-- Membership in both graphs for an accepted match, preserved to the end
of the ingestion fold. -/
theorem graphs_after_fold (l : List MatchResult) (st : Analyzer)
    (r : MatchResult) (h : r ∈ l) :
    r.loser ∈ graphGet (l.foldl ingest st).win_graph r.winner ∧
    r.winner ∈ graphGet (l.foldl ingest st).loss_graph r.loser := by
  induction l generalizing st with
  | nil => cases h
  | cons m rest ih =>
    rcases List.mem_cons.mp h with h | h
    · subst h
      rw [List.foldl_cons]
      constructor
      · exact (graphs_mem_foldl rest (ingest st r) _ _).1
          (mem_graphGet_graphAdd_self _ _ _)
      · exact (graphs_mem_foldl rest (ingest st r) _ _).2
          (mem_graphGet_graphAdd_self _ _ _)
    · rw [List.foldl_cons]
      exact ih (ingest st m) h

/-- C3. After any feed is ingested, every accepted match record has its
winner in `win_graph` with the loser in that adjacency set and its loser
in `loss_graph` with the winner in that adjacency set; and re-adding an
already present edge (`_update_records` run twice on the same match)
leaves both graphs unchanged. -/
theorem ingestion_graph_invariant :
    (∀ (st : Analyzer) (f : Feed) (r : MatchResult),
      r ∈ (feedEntries f).filterMap (fun e => acceptMatch e.1 e.2.1 e.2.2) →
      r.loser ∈ graphGet (load_matches st f).1.win_graph r.winner ∧
      r.winner ∈ graphGet (load_matches st f).1.loss_graph r.loser) ∧
    (∀ (st : Analyzer) (m : MatchResult),
      (update_records (update_records st m) m).win_graph =
        (update_records st m).win_graph ∧
      (update_records (update_records st m) m).loss_graph =
        (update_records st m).loss_graph) := by
  constructor
  · intro st f r h
    rw [load_matches_eq]
    exact graphs_after_fold _ _ _ h
  · intro st m
    constructor
    · show graphAdd (update_records st m).win_graph m.winner m.loser = _
      exact graphAdd_of_mem _ _ _ (mem_win_graph_update_records st m)
    · show graphAdd (update_records st m).loss_graph m.loser m.winner = _
      exact graphAdd_of_mem _ _ _ (mem_loss_graph_update_records st m)

/-! ### Ingestion counting (C5) and loser determination (C10) -/

/-- An entry is accepted exactly when winner and both corner names are
present. -/
theorem acceptMatch_isSome (en cn : String) (m : RawMatch) :
    (acceptMatch en cn m).isSome =
      !(m.winner == "" || m.red_corner.name == "" ||
        m.blue_corner.name == "") := by
  by_cases h : m.winner = "" ∨ m.red_corner.name = "" ∨ m.blue_corner.name = ""
  · rw [acceptMatch, if_pos h]
    rcases h with h | h | h <;> simp [h]
  · rw [acceptMatch, if_neg h]
    push_neg at h
    simp [h.1, h.2.1, h.2.2]

theorem length_filterMap_eq_length_filter {α β : Type} (g : α → Option β)
    (l : List α) :
    (l.filterMap g).length = (l.filter (fun a => (g a).isSome)).length := by
  induction l with
  | nil => rfl
  | cons a rest ih =>
    cases h : g a <;> simp [List.filterMap_cons, List.filter_cons, h, ih]

/-- C5. `load_matches` skips exactly the entries with a missing winner or
corner name, keeps processing the rest, and returns the number of accepted
entries; on the Scenario D feed (two valid entries plus one missing its
winner) it returns 2.  The per-entry processing is a total function, so no
malformed individual entry can abort it. -/
theorem load_matches_count :
    (∀ (st : Analyzer) (f : Feed),
      (load_matches st f).2 =
        ((feedEntries f).filter (fun e =>
          !(e.2.2.winner == "" || e.2.2.red_corner.name == "" ||
            e.2.2.blue_corner.name == ""))).length) ∧
    (load_matches Analyzer.init feedD).2 = 2 := by
  constructor
  · intro st f
    rw [load_matches_eq]
    dsimp only
    rw [length_filterMap_eq_length_filter]
    congr 1
    apply List.filter_congr
    intro e _
    exact acceptMatch_isSome e.1 e.2.1 e.2.2
  · decide

/-! Record-dictionary lemmas for C10. -/

theorem recordsGet_append (rs l : List (String × AthleteRecord))
    (n : String) :
    recordsGet (rs ++ l) n =
      ((recordsGet rs n).rec (recordsGet l n) (fun r => some r)) := by
  induction rs with
  | nil => simp [recordsGet]
  | cons p rest ih =>
    by_cases h : p.1 = n <;> simp [recordsGet, h, ih]

theorem recordsGet_ensureRecord_isSome
    (rs : List (String × AthleteRecord)) (n c : String) :
    (recordsGet (ensureRecord rs n c) n).isSome := by
  unfold ensureRecord
  cases h : recordsGet rs n with
  | some r => simp [h]
  | none => rw [recordsGet_append, h]; simp [recordsGet]

theorem recordsGet_ensureRecord_isSome_of_isSome
    (rs : List (String × AthleteRecord)) (n n' c : String)
    (h : (recordsGet rs n).isSome) :
    (recordsGet (ensureRecord rs n' c) n).isSome := by
  unfold ensureRecord
  cases h' : recordsGet rs n' with
  | some r => exact h
  | none =>
    rw [recordsGet_append]
    cases h'' : recordsGet rs n with
    | some r => simp
    | none => rw [h''] at h; simp at h

theorem recordsGet_modifyRecord_isSome
    (rs : List (String × AthleteRecord)) (n n' : String)
    (f : AthleteRecord → AthleteRecord) (h : (recordsGet rs n).isSome) :
    (recordsGet (modifyRecord rs n' f) n).isSome := by
  induction rs with
  | nil => simp [recordsGet] at h
  | cons p rest ih =>
    obtain ⟨k, r⟩ := p
    dsimp only [modifyRecord, List.map_cons]
    by_cases hn : k = n'
    · rw [if_pos (show (k, r).1 = n' from hn)]
      by_cases hk : k = n
      · rw [recordsGet, if_pos hk]; simp
      · rw [recordsGet, if_neg hk]
        rw [recordsGet, if_neg hk] at h
        exact ih h
    · rw [if_neg (show ¬(k, r).1 = n' from hn)]
      by_cases hk : k = n
      · rw [recordsGet, if_pos hk]; simp
      · rw [recordsGet, if_neg hk]
        rw [recordsGet, if_neg hk] at h
        exact ih h

/-- The winner name is always a key of the records dictionary after
`_update_records`. -/
theorem winner_key_after_update (st : Analyzer) (m : MatchResult) :
    (recordsGet (update_records st m).athlete_records m.winner).isSome := by
  unfold update_records
  dsimp only
  apply recordsGet_modifyRecord_isSome
  apply recordsGet_ensureRecord_isSome_of_isSome
  apply recordsGet_modifyRecord_isSome
  exact recordsGet_ensureRecord_isSome _ _ _

/-- C10. An entry whose declared winner matches neither corner name (all
names present) is still accepted: the red corner is recorded as the loser
and the winner country is taken from the blue corner, and the resulting
record enters the athlete records and the win graph under the mismatched
winner name. -/
theorem accept_mismatched_winner (en cn : String) (m : RawMatch)
    (hw : m.winner ≠ "") (hr : m.red_corner.name ≠ "")
    (hb : m.blue_corner.name ≠ "") (hwr : m.winner ≠ m.red_corner.name)
    (hwb : m.winner ≠ m.blue_corner.name) :
    ∃ r, acceptMatch en cn m = some r ∧ r.winner = m.winner ∧
      r.loser = m.red_corner.name ∧
      r.winner_country = m.blue_corner.country ∧
      r.winner ≠ r.loser ∧ r.winner ≠ m.blue_corner.name ∧
      ∀ st : Analyzer,
        (recordsGet (update_records st r).athlete_records r.winner).isSome ∧
        r.loser ∈ graphGet (update_records st r).win_graph r.winner := by
  have hacc : acceptMatch en cn m = some
      { winner := m.winner
        winner_country := m.blue_corner.country
        loser := m.red_corner.name
        loser_country := m.red_corner.country
        score := some (toString (m.red_corner.score.getD 0) ++ "-" ++
          toString (m.blue_corner.score.getD 0))
        event := some en
        category := some cn
        round := some (m.round.getD "Unknown") } := by
    unfold acceptMatch
    rw [if_neg (by simp [hw, hr, hb])]
    dsimp only
    rw [if_neg hwr]
  exact ⟨_, hacc, rfl, rfl, rfl, hwr, hwb, fun st =>
    ⟨winner_key_after_update st _, mem_win_graph_update_records st _⟩⟩

/-! ### Sorting lemmas and the leaderboard claim (C7) -/

theorem mem_insertDescBy {α β : Type} (key : α → β) [LinearOrder β]
    (x a : α) (l : List α) :
    a ∈ insertDescBy key x l ↔ a = x ∨ a ∈ l := by
  induction l with
  | nil => simp [insertDescBy]
  | cons y ys ih =>
    unfold insertDescBy
    by_cases h : key x < key y
    · rw [if_pos h]
      simp only [List.mem_cons, ih]
      tauto
    · rw [if_neg h]
      simp only [List.mem_cons]

theorem mem_sortDescBy {α β : Type} (key : α → β) [LinearOrder β]
    (a : α) (l : List α) :
    a ∈ sortDescBy key l ↔ a ∈ l := by
  induction l with
  | nil => simp [sortDescBy]
  | cons y ys ih =>
    unfold sortDescBy
    rw [mem_insertDescBy, ih, List.mem_cons]

theorem pairwise_insertDescBy {α β : Type} (key : α → β) [LinearOrder β]
    (x : α) (l : List α)
    (h : List.Pairwise (fun a b => key b ≤ key a) l) :
    List.Pairwise (fun a b => key b ≤ key a) (insertDescBy key x l) := by
  induction l with
  | nil => simp [insertDescBy]
  | cons y ys ih =>
    rw [List.pairwise_cons] at h
    unfold insertDescBy
    by_cases hc : key x < key y
    · rw [if_pos hc, List.pairwise_cons]
      refine ⟨fun z hz => ?_, ih h.2⟩
      rcases (mem_insertDescBy key x z ys).mp hz with rfl | hz
      · exact le_of_lt hc
      · exact h.1 z hz
    · rw [if_neg hc, List.pairwise_cons]
      refine ⟨fun z hz => ?_, List.pairwise_cons.mpr h⟩
      rcases List.mem_cons.mp hz with rfl | hz
      · exact not_lt.mp hc
      · exact le_trans (h.1 z hz) (not_lt.mp hc)

theorem pairwise_sortDescBy {α β : Type} (key : α → β) [LinearOrder β]
    (l : List α) :
    List.Pairwise (fun a b => key b ≤ key a) (sortDescBy key l) := by
  induction l with
  | nil => simp [sortDescBy]
  | cons y ys ih => exact pairwise_insertDescBy key y _ ih

theorem filter_insertDescBy_eq {α β : Type} (key : α → β) [LinearOrder β]
    [DecidableEq β] (x : α) (l : List α) (k : β) (hx : key x = k) :
    (insertDescBy key x l).filter (fun r => decide (key r = k)) =
      x :: l.filter (fun r => decide (key r = k)) := by
  induction l with
  | nil => simp [insertDescBy, hx]
  | cons y ys ih =>
    unfold insertDescBy
    by_cases h : key x < key y
    · have hy : ¬(key y = k) := by
        intro he
        rw [hx] at h
        rw [he] at h
        exact lt_irrefl k h
      rw [if_pos h, List.filter_cons, if_neg (by simp [hy]), ih,
        List.filter_cons, if_neg (by simp [hy])]
    · rw [if_neg h]
      simp [List.filter_cons, hx]

theorem filter_insertDescBy_ne {α β : Type} (key : α → β) [LinearOrder β]
    [DecidableEq β] (x : α) (l : List α) (k : β) (hx : ¬(key x = k)) :
    (insertDescBy key x l).filter (fun r => decide (key r = k)) =
      l.filter (fun r => decide (key r = k)) := by
  induction l with
  | nil => simp [insertDescBy, hx]
  | cons y ys ih =>
    unfold insertDescBy
    by_cases h : key x < key y
    · rw [if_pos h, List.filter_cons, List.filter_cons]
      by_cases hy : key y = k <;> simp [hy, ih]
    · rw [if_neg h, List.filter_cons, List.filter_cons]
      simp [hx]

/-- Stability of the descending sort: the elements of any one key class
keep exactly their original relative order. -/
theorem filter_sortDescBy {α β : Type} (key : α → β) [LinearOrder β]
    [DecidableEq β] (l : List α) (k : β) :
    (sortDescBy key l).filter (fun r => decide (key r = k)) =
      l.filter (fun r => decide (key r = k)) := by
  induction l with
  | nil => rfl
  | cons y ys ih =>
    unfold sortDescBy
    by_cases hy : key y = k
    · rw [filter_insertDescBy_eq key y _ k hy, ih, List.filter_cons]
      simp [hy]
    · rw [filter_insertDescBy_ne key y _ k hy, ih, List.filter_cons]
      simp [hy]

theorem recordsGet_eq_none_iff (rs : List (String × AthleteRecord))
    (n : String) :
    recordsGet rs n = none ↔ n ∉ rs.map Prod.fst := by
  induction rs with
  | nil => simp [recordsGet]
  | cons p rest ih =>
    obtain ⟨k, r⟩ := p
    by_cases h : k = n
    · subst h
      simp [recordsGet]
    · rw [show recordsGet ((k, r) :: rest) n = recordsGet rest n from by
        simp [recordsGet, h], ih]
      simp only [List.map_cons, List.mem_cons]
      constructor
      · intro hn hc
        rcases hc with hc | hc
        · exact h hc.symm
        · exact hn hc
      · intro hn hc
        exact hn (Or.inr hc)

theorem keys_ensureRecord (rs : List (String × AthleteRecord))
    (n c : String) :
    (ensureRecord rs n c).map Prod.fst = pushNew (rs.map Prod.fst) n := by
  unfold ensureRecord pushNew
  cases h : recordsGet rs n with
  | some r =>
    have : n ∈ rs.map Prod.fst := by
      by_contra hn
      rw [← recordsGet_eq_none_iff] at hn
      rw [h] at hn
      cases hn
    rw [if_pos this]
  | none =>
    rw [recordsGet_eq_none_iff] at h
    rw [if_neg h, List.map_append]
    rfl

theorem keys_modifyRecord (rs : List (String × AthleteRecord)) (n : String)
    (f : AthleteRecord → AthleteRecord) :
    (modifyRecord rs n f).map Prod.fst = rs.map Prod.fst := by
  unfold modifyRecord
  rw [List.map_map]
  apply List.map_congr_left
  intro p _
  by_cases h : p.1 = n <;> simp [h]

theorem keys_update_records (st : Analyzer) (m : MatchResult) :
    (update_records st m).athlete_records.map Prod.fst =
      pushNew (pushNew (st.athlete_records.map Prod.fst) m.winner)
        m.loser := by
  unfold update_records
  dsimp only
  rw [keys_modifyRecord, keys_ensureRecord, keys_modifyRecord,
    keys_ensureRecord]

theorem keys_ingest (st : Analyzer) (m : MatchResult) :
    (ingest st m).athlete_records.map Prod.fst =
      pushNew (pushNew (st.athlete_records.map Prod.fst) m.winner)
        m.loser :=
  keys_update_records _ m

/-- After ingesting a list of matches, the athlete dictionary keys are in
first-appearance order (winner before loser within one match). -/
theorem keys_foldl_ingest (l : List MatchResult) (st : Analyzer) :
    (l.foldl ingest st).athlete_records.map Prod.fst =
      l.foldl (fun ks m => pushNew (pushNew ks m.winner) m.loser)
        (st.athlete_records.map Prod.fst) := by
  induction l generalizing st with
  | nil => rfl
  | cons m rest ih =>
    rw [List.foldl_cons, List.foldl_cons, ih, keys_ingest]

/-- C7. Category leaderboards (Asian and world variants) are sorted by
total matches in descending order and keep at most `top_n` athletes; the
sort is stable, so athletes with equal totals stay in the underlying
dictionary order; and that dictionary lists athletes in the order their
names first appeared in the accepted feed entries. -/
theorem leaderboard_order :
    ∀ (st : Analyzer) (n : Nat) (c : String),
      (List.Pairwise (fun a b => b.total_matches ≤ a.total_matches)
          (get_top_asian_athletes_by_category st n c) ∧
        (get_top_asian_athletes_by_category st n c).length ≤ n) ∧
      (List.Pairwise (fun a b => b.total_matches ≤ a.total_matches)
          (get_top_world_athletes_by_category st n c) ∧
        (get_top_world_athletes_by_category st n c).length ≤ n) ∧
      (∀ (l : List AthleteRecord) (k : Nat),
        (sortDescBy AthleteRecord.total_matches l).filter
            (fun r => decide (r.total_matches = k)) =
          l.filter (fun r => decide (r.total_matches = k))) ∧
      (∀ (st0 : Analyzer) (f : Feed),
        (load_matches st0 f).1.athlete_records.map Prod.fst =
          ((feedEntries f).filterMap
              (fun e => acceptMatch e.1 e.2.1 e.2.2)).foldl
            (fun ks m => pushNew (pushNew ks m.winner) m.loser)
            (st0.athlete_records.map Prod.fst)) := by
  intro st n c
  refine ⟨⟨?_, ?_⟩, ⟨?_, ?_⟩, ?_, ?_⟩
  · exact (pairwise_sortDescBy AthleteRecord.total_matches _).sublist
      (List.take_sublist _ _)
  · unfold get_top_asian_athletes_by_category
    exact List.length_take_le _ _
  · exact (pairwise_sortDescBy AthleteRecord.total_matches _).sublist
      (List.take_sublist _ _)
  · unfold get_top_world_athletes_by_category
    exact List.length_take_le _ _
  · exact fun l k => filter_sortDescBy AthleteRecord.total_matches l k
  · intro st0 f
    rw [load_matches_eq]
    exact keys_foldl_ingest _ st0

/-! ### Win-rate claim (C2) -/

/-- C2 counterexample.  The loser of Scenario A is stored with win_rate 0
and total_matches 1, so "win_rate = 0 exactly when total_matches = 0" is
false on this reachable record: win_rate is 0 whenever the athlete has no
wins, even with recorded losses. -/
theorem win_rate_zero_cex :
    recordsGet stA.athlete_records "OMAR" = some omarRec ∧
    omarRec.win_rate = 0 ∧ omarRec.total_matches = 1 ∧
    ¬(omarRec.win_rate = 0 ↔ omarRec.total_matches = 0) := by
  have hz : omarRec.win_rate = 0 := by
    simp [AthleteRecord.win_rate, omarRec]
  refine ⟨by decide, hz, by decide, fun h => ?_⟩
  have h0 := h.mp hz
  simp [omarRec, AthleteRecord.total_matches, mA] at h0

/-- C2 amended.  For every athlete record the win rate lies in [0, 1], and
it is 0 exactly when the athlete has no recorded wins (in particular it is
0 for an athlete with no matches at all). -/
theorem win_rate_bounds (r : AthleteRecord) :
    0 ≤ r.win_rate ∧ r.win_rate ≤ 1 ∧
      (r.win_rate = 0 ↔ r.wins.length = 0) := by
  unfold AthleteRecord.win_rate
  by_cases h : 0 < r.wins.length + r.losses.length
  · rw [if_pos h]
    have ht : (0 : ℚ) < ((r.wins.length + r.losses.length : ℕ) : ℚ) := by
      exact_mod_cast h
    refine ⟨div_nonneg (by positivity) (le_of_lt ht), ?_, ?_⟩
    · rw [div_le_one ht]
      exact_mod_cast Nat.le_add_right _ _
    · rw [div_eq_zero_iff]
      constructor
      · rintro (h0 | h0)
        · exact_mod_cast h0
        · exact absurd h0 (ne_of_gt ht)
      · intro h0
        exact Or.inl (by exact_mod_cast h0)
  · rw [if_neg h]
    push_neg at h
    have : r.wins.length = 0 := by omega
    simp [this]

/-! ### Beatability-score decomposition and bounds (C1, C4, C6, C8) -/

theorem if_isEmpty_scale {α : Type} (l : List α) (s c : ℚ) :
    (if l.isEmpty then s else s + c * l.length) = s + c * l.length := by
  cases l <;> simp

theorem if_isEmpty_scale_min {α : Type} (l : List α) (s c : ℚ) (n : Nat) :
    (if l.isEmpty then s else s + c * ((min l.length n : Nat) : ℚ)) =
      s + c * ((min l.length n : Nat) : ℚ) := by
  cases l <;> simp [Nat.min_def]

theorem if_prop_add (c : Prop) [Decidable c] (s x : ℚ) :
    (if c then s + x else s) = s + (if c then x else 0) := by
  split_ifs <;> simp

/-- The beatability score is the clamped sum of the five signal values. -/
theorem beatability_score_eq (st : Analyzer) (R O : AthleteRecord) :
    (calculate_beatability st R O).beatability_score =
      min (sharedContribution st R O + winRateContribution R O +
        formContribution O + experienceContribution R O +
        closeContribution O) 1 := by
  unfold calculate_beatability sharedContribution winRateContribution
    formContribution experienceContribution closeContribution sharedLossSet
    recentLosses recentWins closeLossCount
  dsimp only
  rw [if_isEmpty_scale, if_isEmpty_scale_min, if_prop_add, if_prop_add,
    if_prop_add]
  congr 1
  ring

theorem sharedContribution_nonneg (st : Analyzer) (R O : AthleteRecord) :
    0 ≤ sharedContribution st R O := by
  unfold sharedContribution
  positivity

theorem winRateContribution_nonneg (R O : AthleteRecord) :
    0 ≤ winRateContribution R O := by
  unfold winRateContribution
  split_ifs with h
  · have := sub_nonneg.mpr (le_of_lt h)
    positivity
  · exact le_refl 0

theorem formContribution_nonneg (O : AthleteRecord) :
    0 ≤ formContribution O := by
  unfold formContribution
  split_ifs <;> norm_num

theorem experienceContribution_nonneg (R O : AthleteRecord) :
    0 ≤ experienceContribution R O := by
  unfold experienceContribution
  split_ifs <;> norm_num

theorem closeContribution_nonneg (O : AthleteRecord) :
    0 ≤ closeContribution O := by
  unfold closeContribution
  positivity

/-- Every target of every scouting report is one `calculate_beatability`
result for the report's reference athlete. -/
theorem target_mem_report (st : Analyzer) (sn c : Option String)
    (ar : AthleteReport) (t : ScoutingTarget)
    (har : ar ∈ generate_scouting_report st sn c)
    (ht : t ∈ ar.scouting_targets) :
    ∃ R O, t = calculate_beatability st R O := by
  unfold generate_scouting_report at har
  rcases List.mem_map.mp har with ⟨saudi, _, rfl⟩
  dsimp only at ht
  have ht2 := List.take_subset _ _ ht
  have ht3 := (mem_sortDescBy ScoutingTarget.beatability_score t _).mp ht2
  have ht4 := (List.mem_filter.mp ht3).1
  rcases List.mem_map.mp ht4 with ⟨o, _, rfl⟩
  exact ⟨saudi, o, rfl⟩

/-- C1.  The beatability score is the five-signal sum clamped to at most
1 and is never negative, so it lies in [0, 1]; consequently so does the
score of every target of every generated scouting report. -/
theorem beatability_score_in_unit_interval :
    (∀ (st : Analyzer) (R O : AthleteRecord),
      0 ≤ (calculate_beatability st R O).beatability_score ∧
      (calculate_beatability st R O).beatability_score ≤ 1) ∧
    (∀ (st : Analyzer) (sn c : Option String) (ar : AthleteReport)
      (t : ScoutingTarget), ar ∈ generate_scouting_report st sn c →
      t ∈ ar.scouting_targets →
      0 ≤ t.beatability_score ∧ t.beatability_score ≤ 1) := by
  have key : ∀ (st : Analyzer) (R O : AthleteRecord),
      0 ≤ (calculate_beatability st R O).beatability_score ∧
      (calculate_beatability st R O).beatability_score ≤ 1 := by
    intro st R O
    rw [beatability_score_eq]
    constructor
    · exact le_min
        (add_nonneg (add_nonneg (add_nonneg (add_nonneg
          (sharedContribution_nonneg st R O)
          (winRateContribution_nonneg R O))
          (formContribution_nonneg O))
          (experienceContribution_nonneg R O))
          (closeContribution_nonneg O)) zero_le_one
    · exact min_le_right _ _
  refine ⟨key, fun st sn c ar t har ht => ?_⟩
  rcases target_mem_report st sn c ar t har ht with ⟨R, O, rfl⟩
  exact key st R O

/-- Loading Scenario A produces exactly the state above. -/
theorem stA_eq : stA = stAval := by decide

/-- Win rate of the Scenario A winner. -/
theorem aliRec_win_rate : aliRec.win_rate = 1 := by
  norm_num [AthleteRecord.win_rate, aliRec]

/-- Win rate of the Scenario A loser. -/
theorem omarRec_win_rate : omarRec.win_rate = 0 := by
  norm_num [AthleteRecord.win_rate, omarRec]

/-- The Scenario A score: win-rate gap 0.2 plus declining form 0.15 plus
one close loss 0.1. -/
theorem targetA_score : targetA.beatability_score = 9 / 20 := by
  show (calculate_beatability stAval aliRec omarRec).beatability_score = _
  rw [beatability_score_eq]
  have h1 : sharedContribution stAval aliRec omarRec = 0 := by
    unfold sharedContribution
    rw [show sharedLossSet stAval aliRec omarRec = [] from by decide]
    norm_num
  have h2 : winRateContribution aliRec omarRec = 1 / 5 := by
    unfold winRateContribution
    rw [aliRec_win_rate, omarRec_win_rate]
    norm_num
  have h3 : formContribution omarRec = 15 / 100 := by
    unfold formContribution
    rw [if_pos
      (by decide : (recentWins omarRec).length < (recentLosses omarRec).length)]
  have h4 : experienceContribution aliRec omarRec = 0 := by
    unfold experienceContribution
    rw [if_neg
      (by decide : ¬(omarRec.total_matches < aliRec.total_matches))]
  have h5 : closeContribution omarRec = 1 / 10 := by
    unfold closeContribution
    rw [show closeLossCount omarRec = 1 from by decide]
    norm_num
  rw [h1, h2, h3, h4, h5]
  norm_num [min_def]

theorem pctFmt_zero : pctFmt 0 = "0%" := by
  unfold pctFmt
  rw [show (⌊(0:ℚ) * 100 + 1/2⌋ : ℤ) = 0 by norm_num]
  decide

theorem pctFmt_one : pctFmt 1 = "100%" := by
  unfold pctFmt
  rw [show (⌊(1:ℚ) * 100 + 1/2⌋ : ℤ) = 100 by norm_num]
  decide

theorem saudiA : get_saudi_athletes stAval = [aliRec] := by decide

theorem oppA : get_asian_opponents stAval none = [omarRec] := by decide

/-- The full scouting report of Scenario A, evaluated. -/
theorem reportA_eq : generate_scouting_report stA none none = [arA] := by
  rw [stA_eq]
  unfold generate_scouting_report
  dsimp only
  rw [saudiA, oppA]
  simp only [List.map_cons, List.map_nil, List.filter_cons, List.filter_nil]
  rw [show (!(omarRec.name == aliRec.name)) = true from by decide, if_pos rfl]
  simp only [List.map_cons, List.map_nil, List.filter_cons, List.filter_nil]
  rw [show calculate_beatability stAval aliRec omarRec = targetA from rfl]
  rw [show (decide (0 < targetA.beatability_score)) = true from by
    rw [targetA_score]; norm_num, if_pos rfl]
  simp only [sortDescBy, insertDescBy, List.take]
  rfl

theorem arA_mem : arA ∈ generate_scouting_report stA none none := by
  rw [reportA_eq]
  exact List.mem_singleton.mpr rfl

theorem targetA_mem : targetA ∈ arA.scouting_targets :=
  List.mem_singleton.mpr rfl

/-- C1 witness: the one target of the Scenario A report has its score in
[0, 1] (it is 9/20). -/
theorem beatability_score_in_unit_interval_witness :
    0 ≤ targetA.beatability_score ∧ targetA.beatability_score ≤ 1 :=
  beatability_score_in_unit_interval.2 stA none none arA targetA
    arA_mem targetA_mem

/-! ### The reasoning-list decomposition and the shared-loss signal (C4) -/

theorem if_append_pos (c : Prop) [Decidable c] (l x : List String) :
    (if c then l ++ x else l) = l ++ (if c then x else []) := by
  split_ifs <;> simp

theorem if_append_neg (c : Prop) [Decidable c] (l x : List String) :
    (if c then l else l ++ x) = l ++ (if c then [] else x) := by
  split_ifs <;> simp

theorem if_isEmpty_map {α β : Type} (l : List α) (f : α → β) :
    (if l.isEmpty then ([] : List β) else l.map f) = l.map f := by
  cases l <;> simp

/-- The reasoning list opens with one line per member of the shared-loss
set, followed by the (possibly empty) lines of signals 2–5 in order. -/
theorem reasoning_eq (st : Analyzer) (R O : AthleteRecord) :
    (calculate_beatability st R O).reasoning =
      (sharedLossSet st R O).map
        (fun l => "Lost to " ++ l ++ " - whom " ++ R.name ++ " has beaten") ++
      ((if O.win_rate < R.win_rate then
          ["Lower win rate (" ++ pctFmt O.win_rate ++ " vs " ++
            pctFmt R.win_rate ++ ")"] else []) ++
       ((if (recentWins O).length < (recentLosses O).length then
          ["Recent form declining (" ++ toString (recentLosses O).length ++
            " losses in recent matches)"] else []) ++
        ((if O.total_matches < R.total_matches then
          ["Less experienced (" ++ toString O.total_matches ++ " vs " ++
            toString R.total_matches ++ " matches)"] else []) ++
         (if (O.losses.filter isCloseLoss).isEmpty then []
          else ["Has " ++ toString (O.losses.filter isCloseLoss).length ++
            " close losses (competitive but beatable)"])))) := by
  unfold calculate_beatability sharedLossSet recentWins recentLosses
  dsimp only
  rw [if_isEmpty_map, if_append_pos, if_append_pos, if_append_pos,
    if_append_neg]
  simp only [List.append_assoc]

/-- C4.  The shared-loss signal contributes exactly 0.3 per member of
S = win-graph neighbours of the reference ∩ loss-graph neighbours of the
candidate, and the reasoning list opens with exactly one line per member
of S; in Scenario B (SMITH lost once to OMAR, whom ALI has beaten,
S = {OMAR}) the contribution is exactly 0.3 and the OMAR line appears. -/
theorem shared_loss_signal :
    (∀ (st : Analyzer) (R O : AthleteRecord), ∃ rest,
      (calculate_beatability st R O).reasoning =
        (sharedLossSet st R O).map
          (fun l => "Lost to " ++ l ++ " - whom " ++ R.name ++
            " has beaten") ++ rest ∧
      (calculate_beatability st R O).beatability_score =
        min (3 / 10 * ((sharedLossSet st R O).length : ℚ) +
          winRateContribution R O + formContribution O +
          experienceContribution R O + closeContribution O) 1) ∧
    recordsGet stB.athlete_records "ALI" = some aliRecB ∧
    recordsGet stB.athlete_records "SMITH" = some smithRec ∧
    sharedLossSet stB aliRecB smithRec = ["OMAR"] ∧
    sharedContribution stB aliRecB smithRec = 3 / 10 ∧
    "Lost to OMAR - whom ALI has beaten" ∈
      (calculate_beatability stB aliRecB smithRec).reasoning := by
  refine ⟨fun st R O => ⟨_, reasoning_eq st R O, ?_⟩, by decide, by decide,
    by decide, ?_, ?_⟩
  · rw [beatability_score_eq]
    unfold sharedContribution
    rfl
  · unfold sharedContribution
    rw [show sharedLossSet stB aliRecB smithRec = ["OMAR"] from by decide]
    norm_num
  · rw [reasoning_eq]
    apply List.mem_append_left
    rw [show sharedLossSet stB aliRecB smithRec = ["OMAR"] from by decide]
    decide

/-- C8.  `calculate_beatability` is deterministic: equal analyzer states
and equal records give the same score, the same reasoning lines in the
same order, and in fact identical targets. -/
theorem calculate_beatability_deterministic :
    ∀ (st₁ st₂ : Analyzer) (R₁ R₂ O₁ O₂ : AthleteRecord),
      st₁ = st₂ → R₁ = R₂ → O₁ = O₂ →
      (calculate_beatability st₁ R₁ O₁).beatability_score =
        (calculate_beatability st₂ R₂ O₂).beatability_score ∧
      (calculate_beatability st₁ R₁ O₁).reasoning =
        (calculate_beatability st₂ R₂ O₂).reasoning ∧
      calculate_beatability st₁ R₁ O₁ = calculate_beatability st₂ R₂ O₂ := by
  rintro st₁ st₂ R₁ R₂ O₁ O₂ rfl rfl rfl
  exact ⟨rfl, rfl, rfl⟩

/-- C8 witness: two invocations on the Scenario A inputs agree. -/
theorem calculate_beatability_deterministic_witness :
    (calculate_beatability stAval aliRec omarRec).beatability_score =
      (calculate_beatability stAval aliRec omarRec).beatability_score ∧
    (calculate_beatability stAval aliRec omarRec).reasoning =
      (calculate_beatability stAval aliRec omarRec).reasoning ∧
    calculate_beatability stAval aliRec omarRec =
      calculate_beatability stAval aliRec omarRec :=
  calculate_beatability_deterministic stAval stAval aliRec aliRec omarRec
    omarRec rfl rfl rfl

/-! ### The close-losses signal (C6) -/

/-- C6.  The close-losses signal counts exactly the losses whose score
string splits on "-" into two integer-parsing parts with absolute
difference at most 3, contributes 0.1 × min(count, 3) to the clamped
score sum, and an unparseable score (such as "W.O.") is simply not
counted — the scan is a total function, so it never raises. -/
theorem close_losses_signal :
    (∀ (st : Analyzer) (R O : AthleteRecord),
      (calculate_beatability st R O).beatability_score =
        min (sharedContribution st R O + winRateContribution R O +
          formContribution O + experienceContribution R O +
          1 / 10 * ((min (O.losses.filter isCloseLoss).length 3 : Nat) : ℚ))
          1) ∧
    (∀ m : MatchResult, isCloseLoss m = true ↔
      ∃ s a b x y, m.score = some s ∧ pySplit s '-' = [a, b] ∧
        pyInt a = some x ∧ pyInt b = some y ∧ (x - y).natAbs ≤ 3) ∧
    isCloseLoss { mA with score := some "W.O." } = false ∧
    isCloseLoss { mA with score := some "14-12" } = true ∧
    isCloseLoss { mA with score := some "10-2" } = false := by
  refine ⟨?_, ?_, by decide, by decide, by decide⟩
  · intro st R O
    rw [beatability_score_eq]
    unfold closeContribution closeLossCount
    rfl
  · intro m
    unfold isCloseLoss
    cases hs : m.score with
    | none => simp
    | some s =>
      dsimp only
      by_cases he : s = ""
      · subst he
        rw [if_pos rfl]
        constructor
        · intro h
          cases h
        · rintro ⟨s', a, b, x, y, hss, hsp, -⟩
          obtain rfl : "" = s' := by injection hss
          rw [show pySplit "" '-' = [""] from by decide] at hsp
          simp at hsp
      · rw [if_neg he]
        constructor
        · intro h
          rcases hsp : pySplit s '-' with _ | ⟨a, _ | ⟨b, _ | ⟨c, t⟩⟩⟩ <;>
            rw [hsp] at h <;> try dsimp only at h
          · exact absurd h (by decide)
          · exact absurd h (by decide)
          · rcases hx : pyInt a with _ | x <;> rw [hx] at h <;>
              try dsimp only at h
            · exact absurd h (by decide)
            · rcases hy : pyInt b with _ | y <;> rw [hy] at h <;>
                try dsimp only at h
              · exact absurd h (by decide)
              · exact ⟨s, a, b, x, y, rfl, hsp, hx, hy, of_decide_eq_true h⟩
          · exact absurd h (by decide)
        · rintro ⟨s', a, b, x, y, hss, hsp, hx, hy, hd⟩
          obtain rfl : s = s' := by injection hss
          rw [hsp]
          dsimp only
          rw [hx, hy]
          exact decide_eq_true hd

/-- C9 counterexample.  BB beat AA and lost to four athletes, FF among
them, but the depth-2 loss-chain trace for AA prints no line mentioning
FF: the second level is truncated to the first three beaters, so it does
not list every member of `loss_graph[beater]`. -/
theorem print_loss_chains_cex :
    "BB" ∈ graphGet stC.loss_graph "AA" ∧
    "FF" ∈ graphGet stC.loss_graph "BB" ∧
    (print_loss_chains stC "AA" 2).all
      (fun l => !(listHasSub l.data "FF".data)) = true := by
  decide

/-- C9 amended.  The depth-2 trace lists every athlete who beat the given
athlete; for each such beater it lists only the first three members of
that beater's loss set; an athlete with no recorded losses yields the
explicit no-losses message. -/
theorem print_loss_chains_amended :
    ∀ (st : Analyzer) (name : String),
      (graphGet st.loss_graph name = [] →
        print_loss_chains st name 2 =
          ["\n=== LOSS CHAIN: " ++ name ++ " ===\n",
            "  No recorded losses for " ++ name]) ∧
      (∀ b, b ∈ graphGet st.loss_graph name →
        ("    -> " ++ b ++ " (" ++ countryOf st b ++ ")") ∈
          print_loss_chains st name 2 ∧
        (∀ s, s ∈ (graphGet st.loss_graph b).take 3 →
          ("        -> " ++ s ++ " (" ++ countryOf st s ++ ")") ∈
            print_loss_chains st name 2)) := by
  intro st name
  constructor
  · intro h
    unfold print_loss_chains
    dsimp only
    rw [h]
    rfl
  · intro b hb
    have hne : ¬((graphGet st.loss_graph name).isEmpty = true) := by
      intro h0
      rw [List.isEmpty_iff] at h0
      rw [h0] at hb
      cases hb
    unfold print_loss_chains
    dsimp only
    rw [if_neg hne]
    constructor
    · apply List.mem_cons_of_mem
      apply List.mem_cons_of_mem
      exact List.mem_flatMap.mpr ⟨b, hb, List.mem_cons_self _ _⟩
    · intro s hs
      apply List.mem_cons_of_mem
      apply List.mem_cons_of_mem
      refine List.mem_flatMap.mpr ⟨b, hb, List.mem_cons_of_mem _ ?_⟩
      rw [if_pos (by norm_num : (1 : Nat) < 2)]
      exact List.mem_map_of_mem _ hs

/-- C9 witness: in Scenario C the trace for AA contains the line for the
beater BB and the second-level line for CC (a member of the first three
of BB's beaters). -/
theorem print_loss_chains_amended_witness :
    ("    -> " ++ "BB" ++ " (" ++ countryOf stC "BB" ++ ")") ∈
      print_loss_chains stC "AA" 2 ∧
    ("        -> " ++ "CC" ++ " (" ++ countryOf stC "CC" ++ ")") ∈
      print_loss_chains stC "AA" 2 :=
  ⟨((print_loss_chains_amended stC "AA").2 "BB" (by decide)).1,
    ((print_loss_chains_amended stC "AA").2 "BB" (by decide)).2 "CC"
      (by decide)⟩

/-- C3 witness: the accepted Scenario A match has its edge in both graphs
of the loaded state. -/
theorem ingestion_graph_invariant_witness :
    mA.loser ∈
      graphGet (load_matches Analyzer.init feedA).1.win_graph mA.winner ∧
    mA.winner ∈
      graphGet (load_matches Analyzer.init feedA).1.loss_graph mA.loser :=
  ingestion_graph_invariant.1 Analyzer.init feedA mA (by decide)

/-- C10 witness: the ZED entry is accepted with the red corner RRR
recorded as loser and the blue-corner country as winner country. -/
theorem accept_mismatched_winner_witness :
    ∃ r, acceptMatch "EV" "CAT" mZ = some r ∧ r.winner = mZ.winner ∧
      r.loser = mZ.red_corner.name ∧
      r.winner_country = mZ.blue_corner.country ∧
      r.winner ≠ r.loser ∧ r.winner ≠ mZ.blue_corner.name ∧
      ∀ st : Analyzer,
        (recordsGet (update_records st r).athlete_records r.winner).isSome ∧
        r.loser ∈ graphGet (update_records st r).win_graph r.winner :=
  accept_mismatched_winner "EV" "CAT" mZ (by decide) (by decide) (by decide)
    (by decide) (by decide)

end LossChain
